import Mathlib

/-!
Verification development for the keras-nlp BERT backbone
(`keras_nlp/models/bert/bert_models.py`), its test file, and the packaging
script `pip_build.py`.  Python code is shallowly embedded: dynamic kwargs
become association lists of tagged values, exceptions become an `Except`
monad with one constructor per Python exception class, tensors become
nested lists of rationals, and the numeric kernels supplied by the tensor
runtime (exp, tanh, sqrt) are passed in as an explicit `MathKernel`
structure, exactly as the spec scopes them out of the core.
-/

namespace KerasNlp

/-- Python exception classes that appear in the embedded code paths.
`integrityError` stands for the error `keras.utils.get_file` raises on a
content-hash mismatch, `shapeError` for shape-mismatch failures. -/
inductive Err where
  | typeError
  | keyError
  | valueError
  | integrityError
  | shapeError
deriving DecidableEq, Repr

/-- A Python value as it appears in a keyword-argument dictionary. -/
inductive PyVal where
  | int (n : Nat)
  | rat (q : ℚ)
  | str (s : String)
  | bool (b : Bool)
  | pynone
deriving DecidableEq, Repr

/-- A Python keyword-argument dictionary, as an association list. -/
def Kwargs : Type := List (String × PyVal)

/-- Dictionary lookup (first binding wins, as in a Python dict). -/
def kwLookup : List (String × PyVal) → String → Option PyVal
  | [], _ => none
  | (k2, v) :: rest, k => if k2 = k then some v else kwLookup rest k

def kwNat (kw : Kwargs) (k : String) : Option Nat :=
  match kwLookup kw k with
  | some (.int n) => some n
  | _ => none

def kwNatD (kw : Kwargs) (k : String) (d : Nat) : Nat :=
  match kwLookup kw k with
  | some (.int n) => n
  | _ => d

def kwRatD (kw : Kwargs) (k : String) (d : ℚ) : ℚ :=
  match kwLookup kw k with
  | some (.rat q) => q
  | some (.int n) => (n : ℚ)
  | _ => d

def kwBoolD (kw : Kwargs) (k : String) (d : Bool) : Bool :=
  match kwLookup kw k with
  | some (.bool b) => b
  | _ => d

def kwStrOpt (kw : Kwargs) (k : String) : Option String :=
  match kwLookup kw k with
  | some (.str s) => some s
  | _ => none

/-- Index of the classification token in the sequence
(`cls_token_index = 0` in `Bert.__init__`). -/
def cls_token_index : Nat := 0

/-- The constructor arguments of `Bert.__init__`, with the hyperparameters
stored on the instance (`self.vocabulary_size = ...` etc.). -/
structure BertConfig where
  vocabulary_size : Nat
  num_layers : Nat
  num_heads : Nat
  hidden_dim : Nat
  intermediate_dim : Nat
  dropout : ℚ
  max_sequence_length : Nat
  num_segments : Nat
  name : Option String
  trainable : Bool
deriving DecidableEq, Repr

/-- The keyword parameter names accepted by `Bert.__init__`. -/
def acceptedKeys : List String :=
  [ "vocabulary_size", "num_layers", "num_heads", "hidden_dim",
    "intermediate_dim", "dropout", "max_sequence_length", "num_segments",
    "name", "trainable" ]

/-- `Bert(**kwargs)`: Python raises `TypeError` when some keyword is not a
parameter of `__init__` or when a required positional parameter is missing;
otherwise the instance stores the given values, with the source defaults
`dropout=0.1`, `max_sequence_length=512`, `num_segments=2`, `name=None`,
`trainable=True` for the omitted ones. -/
def bertInitKw (kw : Kwargs) : Except Err BertConfig :=
  if kw.all (fun p => acceptedKeys.contains p.1) then
    match kwNat kw "vocabulary_size", kwNat kw "num_layers",
        kwNat kw "num_heads", kwNat kw "hidden_dim",
        kwNat kw "intermediate_dim" with
    | some v, some nl, some nh, some hd, some idim =>
        .ok
          { vocabulary_size := v
            num_layers := nl
            num_heads := nh
            hidden_dim := hd
            intermediate_dim := idim
            dropout := kwRatD kw "dropout" (1/10)
            max_sequence_length := kwNatD kw "max_sequence_length" 512
            num_segments := kwNatD kw "num_segments" 2
            name := kwStrOpt kw "name"
            trainable := kwBoolD kw "trainable" true }
    | _, _, _, _, _ => .error .typeError
  else .error .typeError

/-- The kwargs dictionary for a call of `Bert` that passes only the five
required arguments. -/
def requiredOnlyKw (v nl nh hd idim : Nat) : Kwargs :=
  [ ("vocabulary_size", .int v), ("num_layers", .int nl),
    ("num_heads", .int nh), ("hidden_dim", .int hd),
    ("intermediate_dim", .int idim) ]

/-- `Bert.get_config` (source lines 210-222): returns the dictionary of
hyperparameters in source order, including the `"cls_token_index"` entry
(which is always `0`), and excluding `name` and `trainable`. -/
def getConfig (c : BertConfig) : Kwargs :=
  [ ("vocabulary_size", .int c.vocabulary_size),
    ("hidden_dim", .int c.hidden_dim),
    ("intermediate_dim", .int c.intermediate_dim),
    ("num_layers", .int c.num_layers),
    ("num_heads", .int c.num_heads),
    ("max_sequence_length", .int c.max_sequence_length),
    ("num_segments", .int c.num_segments),
    ("dropout", .rat c.dropout),
    ("cls_token_index", .int cls_token_index) ]

/-- The argument of `Bert.from_config`: either a preset-name string or a
config dictionary. -/
inductive ConfigArg where
  | presetName (s : String)
  | cfg (kw : Kwargs)

/-- Modelled from the spec: the preset registry `backbone_configs` is
defined in `keras_nlp/models/bert/bert_presets.py`, which is not under
`src/`.  Spec section 3 (PresetEntry: statically registered, read-only)
and section 6 (a static mapping from preset name to config dict) describe
it; the bert-base-uncased hyperparameters are the standard ones also shown
in the source docstring (vocabulary 30522, 12 layers, 12 heads,
hidden 768, intermediate 3072). -/
def backbone_configs : List (String × Kwargs) :=
  [ ("bert_base_uncased",
      [ ("vocabulary_size", .int 30522), ("num_layers", .int 12),
        ("num_heads", .int 12), ("hidden_dim", .int 768),
        ("intermediate_dim", .int 3072), ("dropout", .rat (1/10)),
        ("max_sequence_length", .int 512), ("num_segments", .int 2) ]) ]

def registryLookup : List (String × Kwargs) → String → Option Kwargs
  | [], _ => none
  | (k2, v) :: rest, k => if k2 = k then some v else registryLookup rest k

/-- `Bert.from_config` (source lines 224-228): a string argument is
resolved through `backbone_configs` (an unregistered name raises
`KeyError` from the dictionary subscript); any other argument is used as
the config dictionary directly; then `cls(**config)` is called. -/
def fromConfig (arg : ConfigArg) : Except Err BertConfig :=
  match arg with
  | .presetName s =>
      match registryLookup backbone_configs s with
      | none => .error .keyError
      | some kw => bertInitKw kw
  | .cfg kw => bertInitKw kw

/-! ## Weight loading (`Bert.load_weights`, source lines 236-244) -/

/-- The registered weight artifacts: `backbone_weight_urls` and
`backbone_weight_hashes` from `bert_presets.py` (not under `src/`),
modelled as abstract association lists, as spec section 3 describes
(PresetEntry: name, weights URL, weights content hash). -/
structure WeightsRegistry where
  urls : List (String × String)
  hashes : List (String × String)

def strLookup : List (String × String) → String → Option String
  | [], _ => none
  | (k2, v) :: rest, k => if k2 = k then some v else strLookup rest k

/-- The external effects of weight loading, passed explicitly: `fetch`
maps a URL to the downloaded artifact content, `hashOf` is the content
hash function, and `loadFromPath` is `keras.Model.load_weights` on a
local path (deserializing by parameter name/shape, which may fail with a
shape error). -/
structure FetchEnv where
  fetch : String → String
  hashOf : String → String
  loadFromPath : String → Except Err Unit

/-- `keras.utils.get_file(fname, url, cache_subdir, file_hash)`, modelled
from its documented contract as the spec describes it: fetch the artifact
into the local cache directory `cache_subdir`, verify its content hash
against `file_hash`, and fail (before returning any usable path) on a
mismatch. -/
def get_file (env : FetchEnv) (fname url cacheSubdir fileHash : String) :
    Except Err String :=
  let content := env.fetch url
  if env.hashOf content = fileHash then .ok (cacheSubdir ++ "/" ++ fname)
  else .error .integrityError

/-- The argument of `Bert.load_weights`: a Python string, or a non-string
path-like object / blob. -/
inductive WeightsArg where
  | str (s : String)
  | file (p : String)

/-- `Bert.load_weights(weights)` (source lines 236-244): a string argument
is treated as a preset name — its URL and hash are looked up in the
registries (an unregistered string raises `KeyError`), the artifact is
fetched with `get_file` into the cache subdirectory `models/<name>` with
hash verification, and the resulting path is loaded; a non-string argument
is passed to `super().load_weights` directly, with no hash check. -/
def loadWeights (env : FetchEnv) (reg : WeightsRegistry) (w : WeightsArg) :
    Except Err Unit :=
  match w with
  | .str s =>
      match strLookup reg.urls s with
      | none => .error .keyError
      | some url =>
          match strLookup reg.hashes s with
          | none => .error .keyError
          | some h =>
              match get_file env "model.h5" url ("models/" ++ s) h with
              | .error e => .error e
              | .ok p => env.loadFromPath p
  | .file p => env.loadFromPath p

/-! ## BertBase construction-time validation -/

/-- Modelled from the spec: `BertBase` is not under `src/` (only its test
is).  Spec section 4.5: the caller must supply either `vocabulary_size` or
a `weights` preset name, not neither and not both (the test comment reads
"Only one of `vocabulary_size` or `weights`"), and an unregistered preset
name is rejected; all three failures raise the error the test asserts
(`ValueError`, the spec's ConfigError).  On success the bert-base config
is built from the supplied or preset vocabulary size. -/
def BertBase (weights : Option String) (vocabulary_size : Option Nat) :
    Except Err BertConfig :=
  match vocabulary_size, weights with
  | none, none => .error .valueError
  | some _, some _ => .error .valueError
  | some v, none =>
      bertInitKw (requiredOnlyKw v 12 12 768 3072)
  | none, some w =>
      match registryLookup backbone_configs w with
      | none => .error .valueError
      | some kw => bertInitKw kw

/-- The vocabulary size registered for a preset name, when the name is
registered and carries one. -/
def presetVocab (w : String) : Option Nat :=
  match registryLookup backbone_configs w with
  | none => none
  | some kw => kwNat kw "vocabulary_size"

/-! ## The forward computation graph (`Bert.__init__`, source lines 112-196)

Tensors are nested lists of rationals.  The transcendental scalar kernels
(exp, tanh, sqrt and the constant sqrt(2/pi) used by the tanh-based GELU)
are supplied by the tensor runtime, which the spec explicitly leaves
outside the core; they are passed in as an explicit structure. -/

abbrev Vec : Type := List ℚ
abbrev Mat : Type := List (List ℚ)

/-- The scalar kernels supplied by the numeric runtime. -/
structure MathKernel where
  exp : ℚ → ℚ
  tanh : ℚ → ℚ
  sqrt : ℚ → ℚ
  sqrtTwoOverPi : ℚ

/-- `keras.activations.gelu(x, approximate=True)`: the tanh-based
approximation 0.5 x (1 + tanh(sqrt(2/pi) (x + 0.044715 x^3))). -/
def geluApprox (K : MathKernel) (x : ℚ) : ℚ :=
  1/2 * x * (1 + K.tanh (K.sqrtTwoOverPi * (x + 44715/1000000 * x^3)))

def dot (a b : List ℚ) : ℚ := (List.zipWith (fun x y => x * y) a b).sum

/-- `A * Bt^T`: matrix product with the second operand given transposed
(row i of `Bt` is column i of the untransposed matrix). -/
def matMulT (A Bt : Mat) : Mat :=
  A.map (fun r => Bt.map (fun c => dot r c))

def vadd (a b : List ℚ) : List ℚ := List.zipWith (fun x y => x + y) a b

def matAdd (A B : Mat) : Mat := List.zipWith vadd A B

/-- Add a bias row vector to every row. -/
def addBias (A : Mat) (b : List ℚ) : Mat := A.map (fun r => vadd r b)

/-- Add a bias to a transposed matrix: entry i of `b` is added to every
entry of row i of `Mt`. -/
def addBiasT (b : List ℚ) (Mt : Mat) : Mat :=
  List.zipWith (fun bi row => row.map (fun x => bi + x)) b Mt

/-- Layer normalization epsilon used throughout the model (1e-12). -/
def lnEps : ℚ := 1/1000000000000

/-- `keras.layers.LayerNormalization(axis=-1, epsilon=eps)` on one row:
normalize to zero mean and unit variance along the feature axis, then
scale by `g` and shift by `b`. -/
def layerNormRow (K : MathKernel) (eps : ℚ) (g b r : List ℚ) : List ℚ :=
  let n : ℚ := r.length
  let mu := r.sum / n
  let sigma2 := (r.map (fun x => (x - mu) ^ 2)).sum / n
  let s := K.sqrt (sigma2 + eps)
  vadd (List.zipWith (fun gi xi => gi * xi) g (r.map (fun x => (x - mu) / s))) b

def layerNorm (K : MathKernel) (eps : ℚ) (g b : List ℚ) (A : Mat) : Mat :=
  A.map (layerNormRow K eps g b)

/-- Softmax over one row of attention logits. -/
def softmaxRow (K : MathKernel) (r : List ℚ) : List ℚ :=
  let e := r.map K.exp
  let s := e.sum
  e.map (fun x => x / s)

/-- `keras.layers.Dropout(rate)`: identity at inference time; in training
mode, multiplies by the sampled keep mask and rescales by 1/(1-rate)
(inverted dropout).  The sampled mask is passed explicitly. -/
def dropoutLayer (rate : ℚ) (training : Bool) (keepMask : Mat) (m : Mat) : Mat :=
  if training then
    List.zipWith (fun mr r => List.zipWith (fun k x => k * x / (1 - rate)) mr r)
      keepMask m
  else m

/-- The additive mask bias: padded key positions receive a large negative
bias before the softmax. -/
def negInf : ℚ := -(10 ^ 9)

/-- Parameters of one attention head: query/key/value projection weights
(stored transposed: `head_dim` rows of length `hidden_dim`) and biases. -/
structure HeadParams where
  wqT : Mat
  wkT : Mat
  wvT : Mat
  bq : List ℚ
  bk : List ℚ
  bv : List ℚ

/-- Parameters of one transformer encoder block: attention heads, the
attention output projection, and the two feed-forward denses, with the two
layer norms. -/
structure BlockParams where
  heads : List HeadParams
  woT : Mat
  bo : List ℚ
  ln1g : List ℚ
  ln1b : List ℚ
  w1T : Mat
  b1 : List ℚ
  w2T : Mat
  b2 : List ℚ
  ln2g : List ℚ
  ln2b : List ℚ

/-- All learned parameters of the model. -/
structure BertParams where
  tokenEmb : Mat
  posEmb : Mat
  segEmb : Mat
  embLNg : List ℚ
  embLNb : List ℚ
  blocks : List BlockParams
  poolWT : Mat
  poolB : List ℚ

/-- One attention head on one sequence: project, scale, mask padded keys,
softmax, and weight the values. -/
def attentionHead (c : BertConfig) (K : MathKernel) (hp : HeadParams)
    (mask : List Nat) (x : Mat) : Mat :=
  let d : ℚ := (c.hidden_dim / c.num_heads : Nat)
  let q := addBias (matMulT x hp.wqT) hp.bq
  let k := addBias (matMulT x hp.wkT) hp.bk
  let vT := addBiasT hp.bv (matMulT hp.wvT x)
  let scores := (matMulT q k).map
    (fun r => List.zipWith
      (fun sc mk => if mk = 0 then sc / K.sqrt d + negInf else sc / K.sqrt d)
      r mask)
  let w := dropoutLayer c.dropout false [] (scores.map (softmaxRow K))
  matMulT w vT

/-- Concatenate the per-head outputs along the feature axis. -/
def concatHeads : List Mat → Mat
  | [] => []
  | m :: rest => rest.foldl (fun a b => List.zipWith (fun r1 r2 => r1 ++ r2) a b) m

/-- Modelled from the spec: `keras_nlp.layers.TransformerEncoder` is not
under `src/`.  Spec section 4.2: multi-head self-attention with
`hidden_dim/num_heads`-dimensional heads, padded keys masked with a large
negative bias before softmax, dropout on the attention weights, then
residual-add and layer-norm (epsilon 1e-12); then the feed-forward
sublayer dense(intermediate_dim) -> activation -> dense(hidden_dim) ->
dropout, with residual-add and layer-norm after.  The activation is the
`act` argument; `Bert.__init__` (source lines 160-171) passes the
approximate GELU. -/
def encoderBlockAct (c : BertConfig) (K : MathKernel) (act : ℚ → ℚ)
    (bp : BlockParams) (mask : List Nat) (x : Mat) : Mat :=
  let attnOut := addBias
    (matMulT (concatHeads (bp.heads.map (fun hp => attentionHead c K hp mask x)))
      bp.woT) bp.bo
  let y := layerNorm K lnEps bp.ln1g bp.ln1b
    (matAdd x (dropoutLayer c.dropout false [] attnOut))
  let h := addBias (matMulT y bp.w1T) bp.b1
  let a := h.map (fun r => r.map act)
  let f := addBias (matMulT a bp.w2T) bp.b2
  layerNorm K lnEps bp.ln2g bp.ln2b
    (matAdd y (dropoutLayer c.dropout false [] f))

/-- One transformer encoder block as instantiated by `Bert.__init__`
(source lines 160-171): activation is the tanh-based approximate GELU. -/
def encoderBlock (c : BertConfig) (K : MathKernel) (bp : BlockParams)
    (mask : List Nat) (x : Mat) : Mat :=
  encoderBlockAct c K (geluApprox K) bp mask x

/-- The encoder stack: the blocks applied in order, each to the previous
block's output, all sharing the same padding mask. -/
def encoderStack (c : BertConfig) (K : MathKernel) (bps : List BlockParams)
    (mask : List Nat) (x : Mat) : Mat :=
  bps.foldl (fun acc bp => encoderBlock c K bp mask acc) x

/-- Token embedding: lookup of each id in the `[vocabulary_size,
hidden_dim]` table (source lines 126-132). -/
def tokenEmbed (P : BertParams) (tok : List Nat) : Mat :=
  tok.map (fun i => P.tokenEmb.getD i [])

/-- Modelled from the spec: `keras_nlp.layers.PositionEmbedding` is not
under `src/`.  Spec section 4.1: a learned table indexed by absolute
position 0..max_sequence_length-1, sliced at call time to the actual
sequence length (which must not exceed `max_sequence_length`; the
excess-length failure is checked in the caller `bertForward`). -/
def positionEmbed (P : BertParams) (seqLen : Nat) : Mat :=
  P.posEmb.take seqLen

/-- Segment embedding: lookup of each segment id in the `[num_segments,
hidden_dim]` table (source lines 138-143). -/
def segmentEmbed (P : BertParams) (seg : List Nat) : Mat :=
  seg.map (fun i => P.segEmb.getD i [])

/-- The embedding composer (source lines 125-158): elementwise sum of the
token, position and segment embeddings, then layer normalization with
epsilon 1e-12, then dropout (inference mode in a plain call). -/
def embedOne (c : BertConfig) (K : MathKernel) (P : BertParams)
    (tok seg : List Nat) : Mat :=
  dropoutLayer c.dropout false []
    (layerNorm K lnEps P.embLNg P.embLNb
      (matAdd (matAdd (tokenEmbed P tok) (positionEmbed P tok.length))
        (segmentEmbed P seg)))

/-- The hidden states for one batch element: embedding followed by the
encoder stack (this is the `sequence_output` head, source line 175). -/
def seqOutOne (c : BertConfig) (K : MathKernel) (P : BertParams)
    (tok seg mask : List Nat) : Mat :=
  encoderStack c K P.blocks mask (embedOne c K P tok seg)

/-- The pooled dense head (source lines 176-181): a `hidden_dim`-wide
dense layer with tanh activation. -/
def poolDense (K : MathKernel) (P : BertParams) (v : List ℚ) : List ℚ :=
  (vadd (P.poolWT.map (fun wrow => dot v wrow)) P.poolB).map K.tanh

/-- The pooled output for one batch element: the pooled dense applied to
the hidden state at the classification-token position (index 0). -/
def poolOne (c : BertConfig) (K : MathKernel) (P : BertParams)
    (tok seg mask : List Nat) : List ℚ :=
  poolDense K P ((seqOutOne c K P tok seg mask).getD cls_token_index [])

/-- The three model inputs (`token_ids`, `segment_ids`, `padding_mask`),
each `[batch, seq_len]` (source lines 114-123). -/
structure InputBatch where
  token_ids : List (List Nat)
  segment_ids : List (List Nat)
  padding_mask : List (List Nat)

def seqLen (b : InputBatch) : Nat := (b.token_ids.headD []).length

def batchSize (b : InputBatch) : Nat := b.token_ids.length

def zip3 : List α → List β → List γ → List (α × β × γ)
  | a :: as2, b :: bs, c :: cs => (a, b, c) :: zip3 as2 bs cs
  | _, _, _ => []

/-- The two model outputs (source lines 190-193). -/
structure ModelOutputs where
  sequence_output : List Mat
  pooled_output : Mat

def inputRows (b : InputBatch) : List (List Nat × List Nat × List Nat) :=
  zip3 b.token_ids b.segment_ids b.padding_mask

def seqOutputs (c : BertConfig) (K : MathKernel) (P : BertParams)
    (b : InputBatch) : List Mat :=
  (inputRows b).map (fun r => seqOutOne c K P r.1 r.2.1 r.2.2)

def pooledOutputs (c : BertConfig) (K : MathKernel) (P : BertParams)
    (b : InputBatch) : Mat :=
  (inputRows b).map (fun r => poolOne c K P r.1 r.2.1 r.2.2)

/-- A plain (inference) call of the model: fails with a shape error when
the sequence length exceeds `max_sequence_length` (the positional
embedding cannot cover it, spec section 4.1), otherwise produces the
sequence output and pooled output per batch element. -/
def bertForward (c : BertConfig) (K : MathKernel) (P : BertParams)
    (b : InputBatch) : Except Err ModelOutputs :=
  if c.max_sequence_length < seqLen b then .error .shapeError
  else .ok
    { sequence_output := seqOutputs c K P b
      pooled_output := pooledOutputs c K P b }

/-! ## Well-formedness (spec section 3 data-model invariants) -/

/-- `A` is an `r × c` matrix. -/
def matShape (A : Mat) (r cols : Nat) : Prop :=
  A.length = r ∧ ∀ row ∈ A, row.length = cols

instance (A : Mat) (r cols : Nat) : Decidable (matShape A r cols) := by
  unfold matShape; infer_instance

/-- A valid ModelConfig (spec section 3). -/
def configWf (c : BertConfig) : Prop :=
  0 < c.vocabulary_size ∧ 0 < c.num_layers ∧ 0 < c.num_heads ∧
  0 < c.hidden_dim ∧ c.hidden_dim % c.num_heads = 0 ∧
  0 < c.intermediate_dim ∧ 0 ≤ c.dropout ∧ c.dropout < 1 ∧
  0 < c.max_sequence_length ∧ 1 ≤ c.num_segments

instance (c : BertConfig) : Decidable (configWf c) := by
  unfold configWf; infer_instance

def headWf (c : BertConfig) (hp : HeadParams) : Prop :=
  let hdn := c.hidden_dim / c.num_heads
  matShape hp.wqT hdn c.hidden_dim ∧ matShape hp.wkT hdn c.hidden_dim ∧
  matShape hp.wvT hdn c.hidden_dim ∧
  hp.bq.length = hdn ∧ hp.bk.length = hdn ∧ hp.bv.length = hdn

instance (c : BertConfig) (hp : HeadParams) : Decidable (headWf c hp) := by
  unfold headWf; infer_instance

def blockWf (c : BertConfig) (bp : BlockParams) : Prop :=
  bp.heads.length = c.num_heads ∧ (∀ hp ∈ bp.heads, headWf c hp) ∧
  matShape bp.woT c.hidden_dim c.hidden_dim ∧ bp.bo.length = c.hidden_dim ∧
  bp.ln1g.length = c.hidden_dim ∧ bp.ln1b.length = c.hidden_dim ∧
  matShape bp.w1T c.intermediate_dim c.hidden_dim ∧
  bp.b1.length = c.intermediate_dim ∧
  matShape bp.w2T c.hidden_dim c.intermediate_dim ∧
  bp.b2.length = c.hidden_dim ∧
  bp.ln2g.length = c.hidden_dim ∧ bp.ln2b.length = c.hidden_dim

instance (c : BertConfig) (bp : BlockParams) : Decidable (blockWf c bp) := by
  unfold blockWf; infer_instance

def paramsWf (c : BertConfig) (P : BertParams) : Prop :=
  matShape P.tokenEmb c.vocabulary_size c.hidden_dim ∧
  matShape P.posEmb c.max_sequence_length c.hidden_dim ∧
  matShape P.segEmb c.num_segments c.hidden_dim ∧
  P.embLNg.length = c.hidden_dim ∧ P.embLNb.length = c.hidden_dim ∧
  P.blocks.length = c.num_layers ∧ (∀ bp ∈ P.blocks, blockWf c bp) ∧
  matShape P.poolWT c.hidden_dim c.hidden_dim ∧
  P.poolB.length = c.hidden_dim

instance (c : BertConfig) (P : BertParams) : Decidable (paramsWf c P) := by
  unfold paramsWf; infer_instance

/-- A valid InputBatch for a config (spec section 3): the three arrays are
rectangular and share the shape `[batch, seq_len]`, token ids lie in
`[0, vocabulary_size)` and segment ids in `[0, num_segments)`. -/
def inputWf (c : BertConfig) (b : InputBatch) : Prop :=
  b.segment_ids.length = b.token_ids.length ∧
  b.padding_mask.length = b.token_ids.length ∧
  (∀ r ∈ b.token_ids, r.length = seqLen b ∧ ∀ i ∈ r, i < c.vocabulary_size) ∧
  (∀ r ∈ b.segment_ids, r.length = seqLen b ∧ ∀ i ∈ r, i < c.num_segments) ∧
  (∀ r ∈ b.padding_mask, r.length = seqLen b)

instance (c : BertConfig) (b : InputBatch) : Decidable (inputWf c b) := by
  unfold inputWf; infer_instance

/-! ## Concrete instances used to evaluate the definitions -/

/-- A trivial but concrete math kernel, for evaluating the graph. -/
def K0 : MathKernel :=
  { exp := fun _ => 1, tanh := fun _ => 1, sqrt := fun _ => 1,
    sqrtTwoOverPi := 1 }

/-- A minimal valid config. -/
def c0 : BertConfig :=
  { vocabulary_size := 1, num_layers := 1, num_heads := 1, hidden_dim := 1,
    intermediate_dim := 1, dropout := 0, max_sequence_length := 2,
    num_segments := 1, name := none, trainable := true }

def hp0 : HeadParams :=
  { wqT := [[0]], wkT := [[0]], wvT := [[0]], bq := [0], bk := [0], bv := [0] }

def bp0 : BlockParams :=
  { heads := [hp0], woT := [[0]], bo := [0], ln1g := [0], ln1b := [0],
    w1T := [[0]], b1 := [0], w2T := [[0]], b2 := [0], ln2g := [0], ln2b := [0] }

def P0 : BertParams :=
  { tokenEmb := [[0]], posEmb := [[0], [0]], segEmb := [[0]],
    embLNg := [0], embLNb := [0], blocks := [bp0], poolWT := [[0]],
    poolB := [0] }

/-- A batch of one sequence of length one. -/
def b0 : InputBatch :=
  { token_ids := [[0]], segment_ids := [[0]], padding_mask := [[1]] }

/-- The output record produced by the forward pass on the instance above. -/
def out0 : ModelOutputs :=
  { sequence_output := seqOutputs c0 K0 P0 b0
    pooled_output := pooledOutputs c0 K0 P0 b0 }

/-- A fetch environment whose hash check always fails against "abc". -/
def env0 : FetchEnv :=
  { fetch := fun _ => "payload", hashOf := fun _ => "",
    loadFromPath := fun _ => .ok () }

/-- A fetch environment whose hash check succeeds against "abc". -/
def env1 : FetchEnv :=
  { fetch := fun _ => "payload", hashOf := fun _ => "abc",
    loadFromPath := fun _ => .ok () }

/-- A weights registry with a single registered preset. -/
def reg0 : WeightsRegistry :=
  { urls := [("bert_base_uncased", "https://example.com/model.h5")],
    hashes := [("bert_base_uncased", "abc")] }

end KerasNlp

/-! ## Packaging script (`pip_build.py`) -/

namespace PipBuild

/-- Python `pat in s` on strings, over the character lists. -/
def hasSubstr (p : List Char) : List Char → Bool
  | [] => p.isEmpty
  | c :: t => p.isPrefixOf (c :: t) || hasSubstr p t

/-- Python `pat in s` for `String`. -/
def strHasSubstr (p s : String) : Bool := hasSubstr p.data s.data

/-- `ignore_files(_, filenames)` (pip_build.py lines 45-46): the entries
to be skipped are exactly the filenames containing `"_test"`. -/
def ignore_files (filenames : List String) : List String :=
  filenames.filter (fun f => strHasSubstr "_test" f)

/-- A filesystem tree: what `shutil.copytree` walks. -/
inductive FsTree where
  | file (fname : String)
  | dir (dname : String) (children : List FsTree)

def treeName : FsTree → String
  | .file n => n
  | .dir n _ => n

/-- `shutil.copytree(src, dst, ignore=ignore_files)` as called by
`copy_source_to_build_directory` (pip_build.py lines 82-91), modelled from
the documented `copytree` contract: in every directory visited, the
entries named by `ignore_files` of that directory's listing are not
copied, and the remaining entries are copied recursively. -/
def copytreeFilter : FsTree → FsTree
  | .file n => .file n
  | .dir n cs =>
      let ignored := ignore_files (cs.map treeName)
      .dir n
        (((cs.attach.filter
            (fun c => !(ignored.contains (treeName c.1)))).map
          (fun c => copytreeFilter c.1)))
decreasing_by
  have h := List.sizeOf_lt_of_mem c.2
  simp only [FsTree.dir.sizeOf_spec]
  omega

/-- All file names appearing anywhere in the tree. -/
def treeFiles : FsTree → List String
  | .file n => [n]
  | .dir _ cs => (cs.attach.map (fun c => treeFiles c.1)).flatten
decreasing_by
  have h := List.sizeOf_lt_of_mem c.2
  simp only [FsTree.dir.sizeOf_spec]
  omega

/-- The entries of a small concrete source tree. -/
def t0cs : List FsTree :=
  [ .file "bert_models.py", .file "bert_test.py",
    .dir "models" [ .file "bert_presets.py", .file "bert_test.py" ] ]

/-- A small concrete source tree. -/
def t0 : FsTree := .dir "keras_nlp" t0cs

end PipBuild

/-! # Theorems -/

namespace KerasNlp

/-- C1: the serialize/reload round trip via `get_config`/`from_config` is
broken in the code: `get_config` emits the key `"cls_token_index"`, which
`__init__` does not accept, so `Bert.from_config(model.get_config())`
raises `TypeError` for every model, contradicting the intended
get_config/from_config contract and the save/reload test. -/
theorem getConfig_fromConfig_type_error (c : BertConfig) :
    fromConfig (.cfg (getConfig c)) = .error .typeError := rfl

/-- C1, evaluated at the test's own configuration (vocabulary 1000,
2 layers, 2 heads, hidden 64, intermediate 128, max length 128): the
reload step fails with `TypeError`. -/
theorem getConfig_fromConfig_type_error_at_test_config :
    fromConfig (.cfg (getConfig
      { vocabulary_size := 1000, num_layers := 2, num_heads := 2,
        hidden_dim := 64, intermediate_dim := 128, dropout := 1/10,
        max_sequence_length := 128, num_segments := 2, name := none,
        trainable := true })) = .error .typeError := rfl

/-- C9: constructing `Bert` with only the five required arguments is
accepted and uses exactly the defaults `dropout = 0.1`,
`max_sequence_length = 512`, `num_segments = 2`, `trainable = True`. -/
theorem bert_init_defaults (v nl nh hd idim : Nat) :
    bertInitKw (requiredOnlyKw v nl nh hd idim) =
      .ok { vocabulary_size := v, num_layers := nl, num_heads := nh,
            hidden_dim := hd, intermediate_dim := idim, dropout := 1/10,
            max_sequence_length := 512, num_segments := 2, name := none,
            trainable := true } := rfl

/-- C3: `BertBase` fails with the validation error when neither
`vocabulary_size` nor `weights` is supplied, and when both are supplied
with conflicting values; it never succeeds in either case. -/
theorem bertBase_validation :
    BertBase none none = .error .valueError ∧
    ∀ w v, presetVocab w ≠ some v →
      BertBase (some w) (some v) = .error .valueError :=
  ⟨rfl, fun _ _ _ => rfl⟩

/-- C3 witness: the test's own inputs — no arguments, and
`weights="bert_base_uncased"` (vocabulary 30522) together with
`vocabulary_size=1000`. -/
theorem bertBase_validation_witness :
    presetVocab "bert_base_uncased" ≠ some 1000 ∧
    BertBase none none = .error .valueError ∧
    BertBase (some "bert_base_uncased") (some 1000) = .error .valueError :=
  ⟨by decide, bertBase_validation.1,
   bertBase_validation.2 "bert_base_uncased" 1000 (by decide)⟩

/-- C4: `Bert.from_config` resolves a registered preset name through the
registry and constructs from the registered config; a non-string config
is used directly; an unregistered name fails with the lookup error (the
spec's ConfigError). -/
theorem from_config_dispatch :
    (∀ s kw, registryLookup backbone_configs s = some kw →
      fromConfig (.presetName s) = bertInitKw kw) ∧
    (∀ kw, fromConfig (.cfg kw) = bertInitKw kw) ∧
    (∀ s, registryLookup backbone_configs s = none →
      fromConfig (.presetName s) = .error .keyError) := by
  refine ⟨fun s kw h => ?_, fun kw => rfl, fun s h => ?_⟩ <;>
    simp [fromConfig, h]

/-- C4 witness: the registered name resolves and constructs the
bert-base config; the test's unregistered name "bert_base_clowntown"
fails. -/
theorem from_config_dispatch_witness :
    fromConfig (.presetName "bert_base_uncased") =
      .ok { vocabulary_size := 30522, num_layers := 12, num_heads := 12,
            hidden_dim := 768, intermediate_dim := 3072, dropout := 1/10,
            max_sequence_length := 512, num_segments := 2, name := none,
            trainable := true } ∧
    fromConfig (.presetName "bert_base_clowntown") = .error .keyError := by
  refine ⟨?_, from_config_dispatch.2.2 "bert_base_clowntown" rfl⟩
  rw [from_config_dispatch.1 "bert_base_uncased" _ rfl]
  rfl

/-- C2 counterexample: a direct file path passed as a string is not
loaded directly — `load_weights` dispatches on the argument being a
string, treats the path as a preset name, and fails with `KeyError`,
even though loading the path directly would succeed. -/
theorem load_weights_string_path_cex :
    loadWeights env0 reg0 (.str "/tmp/model.h5") = .error .keyError ∧
    env0.loadFromPath "/tmp/model.h5" = .ok () ∧
    loadWeights env0 reg0 (.str "/tmp/model.h5") ≠
      env0.loadFromPath "/tmp/model.h5" :=
  ⟨rfl, rfl, fun h => Except.noConfusion h⟩

/-- C2 (amended): for a registered preset name the artifact is fetched
into the cache directory keyed by the name and its content hash is
verified against the registered hash — a mismatch fails with the
integrity error before any weight is loaded (for every possible loader);
a non-string path/blob argument is loaded directly with no hash check;
and a string that is not a registered preset name (including a file path
given as a string) fails with `KeyError`. -/
theorem load_weights_dispatch (env : FetchEnv) (reg : WeightsRegistry)
    (s url h : String) (hu : strLookup reg.urls s = some url)
    (hh : strLookup reg.hashes s = some h) :
    (env.hashOf (env.fetch url) ≠ h →
      ∀ load2 : String → Except Err Unit,
        loadWeights { env with loadFromPath := load2 } reg (.str s) =
          .error .integrityError) ∧
    (env.hashOf (env.fetch url) = h →
      loadWeights env reg (.str s) =
        env.loadFromPath ("models/" ++ s ++ "/" ++ "model.h5")) ∧
    (∀ p, loadWeights env reg (.file p) = env.loadFromPath p) ∧
    (∀ s2, strLookup reg.urls s2 = none →
      loadWeights env reg (.str s2) = .error .keyError) := by
  refine ⟨fun hne load2 => ?_, fun heq => ?_, fun p => rfl, fun s2 h2 => ?_⟩
  · simp [loadWeights, hu, hh, get_file, hne]
  · simp [loadWeights, hu, hh, get_file, heq]
  · simp [loadWeights, h2]

/-- C2 witness: the registered preset with a matching hash loads from
the cache path keyed by its name; with a mismatching hash it fails with
the integrity error whatever the loader does; a non-string path argument
is loaded directly. -/
theorem load_weights_dispatch_witness :
    loadWeights env1 reg0 (.str "bert_base_uncased") =
      env1.loadFromPath ("models/" ++ "bert_base_uncased" ++ "/" ++ "model.h5") ∧
    loadWeights { env0 with loadFromPath := fun _ => .ok () } reg0
      (.str "bert_base_uncased") = .error .integrityError ∧
    loadWeights env1 reg0 (.file "/tmp/w.h5") =
      env1.loadFromPath "/tmp/w.h5" :=
  ⟨(load_weights_dispatch env1 reg0 "bert_base_uncased"
      "https://example.com/model.h5" "abc" rfl rfl).2.1 rfl,
   (load_weights_dispatch env0 reg0 "bert_base_uncased"
      "https://example.com/model.h5" "abc" rfl rfl).1 (by decide)
      (fun _ => .ok ()),
   (load_weights_dispatch env1 reg0 "bert_base_uncased"
      "https://example.com/model.h5" "abc" rfl rfl).2.2.1 "/tmp/w.h5"⟩

end KerasNlp

namespace KerasNlp

/-! ## Shape lemmas for the forward graph -/

theorem exists_of_mem_zipWith {α β γ : Type} {f : α → β → γ} {A : List α}
    {B : List β} {x : γ} (h : x ∈ List.zipWith f A B) :
    ∃ a ∈ A, ∃ b ∈ B, x = f a b := by
  rw [List.mem_iff_getElem] at h
  obtain ⟨i, hi, hx⟩ := h
  have hiA : i < A.length := by simp at hi; omega
  have hiB : i < B.length := by simp at hi; omega
  exact ⟨A[i], List.getElem_mem hiA, B[i], List.getElem_mem hiB,
    by rw [← hx, List.getElem_zipWith]⟩

theorem matShape_matMulT {A Bt : Mat} {r cols : Nat} (hA : A.length = r)
    (hB : Bt.length = cols) : matShape (matMulT A Bt) r cols := by
  refine ⟨by simp [matMulT, hA], ?_⟩
  intro row hrow
  simp only [matMulT, List.mem_map] at hrow
  obtain ⟨a, _, rfl⟩ := hrow
  simp [hB]

theorem matShape_addBias {A : Mat} {r cols : Nat} {bv : Vec}
    (hA : matShape A r cols) (hb : bv.length = cols) :
    matShape (addBias A bv) r cols := by
  refine ⟨by simp [addBias, hA.1], ?_⟩
  intro row hrow
  simp only [addBias, List.mem_map] at hrow
  obtain ⟨a, ha, rfl⟩ := hrow
  simp [vadd, hA.2 a ha, hb]

theorem matShape_matAdd {A B : Mat} {r cols : Nat} (hA : matShape A r cols)
    (hB : matShape B r cols) : matShape (matAdd A B) r cols := by
  refine ⟨by simp [matAdd, hA.1, hB.1], ?_⟩
  intro row hrow
  obtain ⟨a, ha, b, hb, rfl⟩ := exists_of_mem_zipWith hrow
  simp [vadd, hA.2 a ha, hB.2 b hb]

theorem matShape_layerNorm {K : MathKernel} {eps : ℚ} {g bv : Vec} {A : Mat}
    {r cols : Nat} (hg : g.length = cols) (hb : bv.length = cols)
    (hA : matShape A r cols) : matShape (layerNorm K eps g bv A) r cols := by
  refine ⟨by simp [layerNorm, hA.1], ?_⟩
  intro row hrow
  simp only [layerNorm, List.mem_map] at hrow
  obtain ⟨a, ha, rfl⟩ := hrow
  simp [layerNormRow, vadd, hg, hb, hA.2 a ha]

theorem dropout_inference (rate : ℚ) (mask m : Mat) :
    dropoutLayer rate false mask m = m := rfl

theorem length_attentionHead (c : BertConfig) (K : MathKernel)
    (hp : HeadParams) (mask : List Nat) (x : Mat) :
    (attentionHead c K hp mask x).length = x.length := by
  simp [attentionHead, matMulT, addBias, dropoutLayer]

theorem length_foldl_zipWith_append {rest : List Mat} {acc : Mat} {n : Nat}
    (hacc : acc.length = n) (h : ∀ m ∈ rest, m.length = n) :
    (rest.foldl (fun a b => List.zipWith (fun r1 r2 => r1 ++ r2) a b) acc).length
      = n := by
  induction rest generalizing acc with
  | nil => simpa using hacc
  | cons m rest ih =>
      refine ih ?_ (fun m2 hm2 => h m2 (List.mem_cons_of_mem _ hm2))
      simp [hacc, h m (List.mem_cons_self _ _)]

theorem length_concatHeads {ms : List Mat} {n : Nat} (hne : ms ≠ [])
    (h : ∀ m ∈ ms, m.length = n) : (concatHeads ms).length = n := by
  match ms, hne with
  | m :: rest, _ =>
      exact length_foldl_zipWith_append (h m (List.mem_cons_self _ _))
        (fun m2 hm2 => h m2 (List.mem_cons_of_mem _ hm2))

theorem matShape_mapMap {A : Mat} {r cols : Nat} {f : ℚ → ℚ}
    (hA : matShape A r cols) :
    matShape (A.map (fun row => row.map f)) r cols := by
  refine ⟨by simp [hA.1], ?_⟩
  intro row hrow
  simp only [List.mem_map] at hrow
  obtain ⟨a, ha, rfl⟩ := hrow
  simp [hA.2 a ha]

theorem matShape_encoderBlockAct {c : BertConfig} {K : MathKernel}
    {act : ℚ → ℚ} {bp : BlockParams} {mask : List Nat} {x : Mat} {s : Nat}
    (hb : blockWf c bp) (hheads : 0 < c.num_heads)
    (hx : matShape x s c.hidden_dim) :
    matShape (encoderBlockAct c K act bp mask x) s c.hidden_dim := by
  obtain ⟨hhlen, _, hwo, hbo, hg1, hb1, hw1, hbias1, hw2, hbias2, hg2, hb2⟩ := hb
  have hne : bp.heads.map (fun hp => attentionHead c K hp mask x) ≠ [] := by
    intro hcontra
    rw [List.map_eq_nil_iff] at hcontra
    rw [hcontra] at hhlen
    simp at hhlen
    omega
  have hconcat :
      (concatHeads (bp.heads.map (fun hp => attentionHead c K hp mask x))).length
        = s := by
    refine length_concatHeads hne ?_
    intro m hm
    simp only [List.mem_map] at hm
    obtain ⟨hp, _, rfl⟩ := hm
    rw [length_attentionHead, hx.1]
  have hattn : matShape (addBias (matMulT
      (concatHeads (bp.heads.map (fun hp => attentionHead c K hp mask x)))
      bp.woT) bp.bo) s c.hidden_dim :=
    matShape_addBias (matShape_matMulT hconcat hwo.1) hbo
  have hy : matShape (layerNorm K lnEps bp.ln1g bp.ln1b
      (matAdd x (dropoutLayer c.dropout false [] (addBias (matMulT
        (concatHeads (bp.heads.map (fun hp => attentionHead c K hp mask x)))
        bp.woT) bp.bo)))) s c.hidden_dim := by
    rw [dropout_inference]
    exact matShape_layerNorm hg1 hb1 (matShape_matAdd hx hattn)
  have hh : matShape (addBias (matMulT (layerNorm K lnEps bp.ln1g bp.ln1b
      (matAdd x (dropoutLayer c.dropout false [] (addBias (matMulT
        (concatHeads (bp.heads.map (fun hp => attentionHead c K hp mask x)))
        bp.woT) bp.bo)))) bp.w1T) bp.b1) s c.intermediate_dim :=
    matShape_addBias (matShape_matMulT hy.1 hw1.1) hbias1
  have hf : matShape (addBias (matMulT ((addBias (matMulT (layerNorm K lnEps
      bp.ln1g bp.ln1b (matAdd x (dropoutLayer c.dropout false [] (addBias
      (matMulT (concatHeads (bp.heads.map
        (fun hp => attentionHead c K hp mask x))) bp.woT) bp.bo)))) bp.w1T)
      bp.b1).map (fun row => row.map act)) bp.w2T) bp.b2) s c.hidden_dim :=
    matShape_addBias (matShape_matMulT (matShape_mapMap hh).1 hw2.1) hbias2
  show matShape (layerNorm K lnEps bp.ln2g bp.ln2b (matAdd _ _)) s c.hidden_dim
  rw [dropout_inference]
  exact matShape_layerNorm hg2 hb2 (matShape_matAdd hy hf)

theorem matShape_encoderStack {c : BertConfig} {K : MathKernel}
    {bps : List BlockParams} {mask : List Nat} {x : Mat} {s : Nat}
    (hb : ∀ bp ∈ bps, blockWf c bp) (hheads : 0 < c.num_heads)
    (hx : matShape x s c.hidden_dim) :
    matShape (encoderStack c K bps mask x) s c.hidden_dim := by
  induction bps generalizing x with
  | nil => exact hx
  | cons bp bps ih =>
      exact ih (fun bp2 h2 => hb bp2 (List.mem_cons_of_mem _ h2))
        (matShape_encoderBlockAct (hb bp (List.mem_cons_self _ _)) hheads hx)

theorem matShape_tokenEmbed {c : BertConfig} {P : BertParams} {tok : List Nat}
    (hT : matShape P.tokenEmb c.vocabulary_size c.hidden_dim)
    (hids : ∀ i ∈ tok, i < c.vocabulary_size) :
    matShape (tokenEmbed P tok) tok.length c.hidden_dim := by
  refine ⟨by simp [tokenEmbed], ?_⟩
  intro row hrow
  simp only [tokenEmbed, List.mem_map] at hrow
  obtain ⟨i, hi, rfl⟩ := hrow
  have hlt : i < P.tokenEmb.length := by rw [hT.1]; exact hids i hi
  rw [List.getD_eq_getElem?_getD, List.getElem?_eq_getElem hlt]
  exact hT.2 _ (List.getElem_mem hlt)

theorem matShape_positionEmbed {c : BertConfig} {P : BertParams} {s : Nat}
    (hP : matShape P.posEmb c.max_sequence_length c.hidden_dim)
    (hs : s ≤ c.max_sequence_length) :
    matShape (positionEmbed P s) s c.hidden_dim := by
  refine ⟨?_, ?_⟩
  · simp [positionEmbed, hP.1]; omega
  · intro row hrow
    exact hP.2 row (List.take_subset _ _ hrow)

theorem matShape_segmentEmbed {c : BertConfig} {P : BertParams} {seg : List Nat}
    (hS : matShape P.segEmb c.num_segments c.hidden_dim)
    (hids : ∀ i ∈ seg, i < c.num_segments) :
    matShape (segmentEmbed P seg) seg.length c.hidden_dim := by
  refine ⟨by simp [segmentEmbed], ?_⟩
  intro row hrow
  simp only [segmentEmbed, List.mem_map] at hrow
  obtain ⟨i, hi, rfl⟩ := hrow
  have hlt : i < P.segEmb.length := by rw [hS.1]; exact hids i hi
  rw [List.getD_eq_getElem?_getD, List.getElem?_eq_getElem hlt]
  exact hS.2 _ (List.getElem_mem hlt)

theorem matShape_embedOne {c : BertConfig} {K : MathKernel} {P : BertParams}
    {tok seg : List Nat} (hp : paramsWf c P)
    (htok : ∀ i ∈ tok, i < c.vocabulary_size)
    (hseg : ∀ i ∈ seg, i < c.num_segments)
    (hlen : seg.length = tok.length)
    (hmax : tok.length ≤ c.max_sequence_length) :
    matShape (embedOne c K P tok seg) tok.length c.hidden_dim := by
  obtain ⟨hT, hPos, hS, hg, hb, _, _, _, _⟩ := hp
  unfold embedOne
  rw [dropout_inference]
  refine matShape_layerNorm hg hb (matShape_matAdd
    (matShape_matAdd (matShape_tokenEmbed hT htok)
      (matShape_positionEmbed hPos hmax)) ?_)
  rw [← hlen]
  exact matShape_segmentEmbed hS hseg

theorem matShape_seqOutOne {c : BertConfig} {K : MathKernel} {P : BertParams}
    {tok seg mask : List Nat} (hc : configWf c) (hp : paramsWf c P)
    (htok : ∀ i ∈ tok, i < c.vocabulary_size)
    (hseg : ∀ i ∈ seg, i < c.num_segments)
    (hlen : seg.length = tok.length)
    (hmax : tok.length ≤ c.max_sequence_length) :
    matShape (seqOutOne c K P tok seg mask) tok.length c.hidden_dim := by
  unfold seqOutOne
  exact matShape_encoderStack hp.2.2.2.2.2.2.1 hc.2.2.1
    (matShape_embedOne hp htok hseg hlen hmax)

theorem length_poolDense {c : BertConfig} {K : MathKernel} {P : BertParams}
    {v : Vec} (hW : P.poolWT.length = c.hidden_dim)
    (hb : P.poolB.length = c.hidden_dim) :
    (poolDense K P v).length = c.hidden_dim := by
  simp [poolDense, vadd, hW, hb]

theorem zip3_length {α β γ : Type} {as : List α} {bs : List β} {cs : List γ}
    (h1 : bs.length = as.length) (h2 : cs.length = as.length) :
    (zip3 as bs cs).length = as.length := by
  induction as generalizing bs cs with
  | nil => simp [zip3]
  | cons a as ih =>
      cases bs with
      | nil => simp at h1
      | cons b bs =>
          cases cs with
          | nil => simp at h2
          | cons c cs =>
              simp only [zip3, List.length_cons]
              rw [ih (by simpa using h1) (by simpa using h2)]

theorem mem_zip3 {α β γ : Type} {as : List α} {bs : List β} {cs : List γ}
    {x : α × β × γ} (hx : x ∈ zip3 as bs cs) :
    x.1 ∈ as ∧ x.2.1 ∈ bs ∧ x.2.2 ∈ cs := by
  induction as generalizing bs cs with
  | nil => simp [zip3] at hx
  | cons a as ih =>
      cases bs with
      | nil => simp [zip3] at hx
      | cons b bs =>
          cases cs with
          | nil => simp [zip3] at hx
          | cons c cs =>
              simp only [zip3, List.mem_cons] at hx
              rcases hx with rfl | hx
              · exact ⟨List.mem_cons_self _ _, List.mem_cons_self _ _,
                  List.mem_cons_self _ _⟩
              · obtain ⟨ha, hb, hc⟩ := ih hx
                exact ⟨List.mem_cons_of_mem _ ha, List.mem_cons_of_mem _ hb,
                  List.mem_cons_of_mem _ hc⟩

/-- C5: for every valid config, well-formed parameters, and input batch of
shared shape `[batch, seq_len]` with `1 ≤ seq_len ≤ max_sequence_length`,
the call succeeds and produces `sequence_output` of shape
`[batch, seq_len, hidden_dim]` and `pooled_output` of shape
`[batch, hidden_dim]` (so in particular the same model accepts sequence
lengths 25, 50 and 75 under `max_sequence_length = 128`). -/
theorem bert_output_shapes (c : BertConfig) (K : MathKernel) (P : BertParams)
    (b : InputBatch) (hc : configWf c) (hp : paramsWf c P)
    (hi : inputWf c b) (h1 : 1 ≤ seqLen b)
    (h2 : seqLen b ≤ c.max_sequence_length) :
    ∃ out, bertForward c K P b = .ok out ∧
      out.sequence_output.length = batchSize b ∧
      (∀ m ∈ out.sequence_output, matShape m (seqLen b) c.hidden_dim) ∧
      matShape out.pooled_output (batchSize b) c.hidden_dim := by
  obtain ⟨hsl, hpl, htok, hseg, hmask⟩ := hi
  have hrows : (inputRows b).length = batchSize b := by
    unfold inputRows batchSize
    exact zip3_length hsl hpl
  refine ⟨{ sequence_output := seqOutputs c K P b
            pooled_output := pooledOutputs c K P b }, ?_, ?_, ?_, ?_⟩
  · unfold bertForward
    rw [if_neg (Nat.not_lt.mpr h2)]
  · simpa [seqOutputs] using hrows
  · intro m hm
    simp only [seqOutputs, List.mem_map] at hm
    obtain ⟨r, hr, rfl⟩ := hm
    obtain ⟨hr1, hr2, _⟩ := mem_zip3 hr
    have hlen1 : r.1.length = seqLen b := (htok r.1 hr1).1
    rw [← hlen1]
    exact matShape_seqOutOne hc hp (htok r.1 hr1).2 (hseg r.2.1 hr2).2
      (by rw [hlen1, (hseg r.2.1 hr2).1]) (by rw [hlen1]; exact h2)
  · refine ⟨by simpa [pooledOutputs] using hrows, ?_⟩
    intro row hrow
    simp only [pooledOutputs, List.mem_map] at hrow
    obtain ⟨r, _, rfl⟩ := hrow
    exact length_poolDense hp.2.2.2.2.2.2.2.1.1 hp.2.2.2.2.2.2.2.2

/-- C5 witness: a concrete valid config, parameters and batch satisfy all
hypotheses and the call produces correctly shaped outputs. -/
theorem bert_output_shapes_witness :
    configWf c0 ∧ paramsWf c0 P0 ∧ inputWf c0 b0 ∧ 1 ≤ seqLen b0 ∧
    seqLen b0 ≤ c0.max_sequence_length ∧
    (∃ out, bertForward c0 K0 P0 b0 = .ok out ∧
      out.sequence_output.length = batchSize b0 ∧
      (∀ m ∈ out.sequence_output, matShape m (seqLen b0) c0.hidden_dim) ∧
      matShape out.pooled_output (batchSize b0) c0.hidden_dim) :=
  ⟨by decide, by decide, by decide, by decide, by decide,
   bert_output_shapes c0 K0 P0 b0 (by decide) (by decide) (by decide)
     (by decide) (by decide)⟩

end KerasNlp

namespace KerasNlp

/-- C6: on every successful call, `sequence_output` is exactly the output
of the last encoder block (the encoder stack applied to the embedding),
unchanged, and `pooled_output` is the `hidden_dim`-wide tanh dense layer
applied to the hidden state at sequence index `cls_token_index = 0` of
that same stack output. -/
theorem bert_output_heads (c : BertConfig) (K : MathKernel) (P : BertParams)
    (b : InputBatch) (out : ModelOutputs)
    (h : bertForward c K P b = .ok out) :
    out.sequence_output = seqOutputs c K P b ∧
    out.pooled_output = pooledOutputs c K P b ∧
    seqOutputs c K P b = (inputRows b).map
      (fun r => encoderStack c K P.blocks r.2.2 (embedOne c K P r.1 r.2.1)) ∧
    pooledOutputs c K P b = (inputRows b).map
      (fun r => poolDense K P
        ((seqOutOne c K P r.1 r.2.1 r.2.2).getD cls_token_index [])) ∧
    cls_token_index = 0 := by
  unfold bertForward at h
  split at h
  · exact absurd h (by simp)
  · cases h
    exact ⟨rfl, rfl, rfl, rfl, rfl⟩

/-- C6 witness: the concrete instance satisfies the call hypothesis and
the head equations. -/
theorem bert_output_heads_witness :
    bertForward c0 K0 P0 b0 = .ok out0 ∧
    (out0.sequence_output = seqOutputs c0 K0 P0 b0 ∧
     out0.pooled_output = pooledOutputs c0 K0 P0 b0 ∧
     seqOutputs c0 K0 P0 b0 = (inputRows b0).map
       (fun r => encoderStack c0 K0 P0.blocks r.2.2 (embedOne c0 K0 P0 r.1 r.2.1)) ∧
     pooledOutputs c0 K0 P0 b0 = (inputRows b0).map
       (fun r => poolDense K0 P0
         ((seqOutOne c0 K0 P0 r.1 r.2.1 r.2.2).getD cls_token_index [])) ∧
     cls_token_index = 0) :=
  ⟨rfl, bert_output_heads c0 K0 P0 b0 out0 rfl⟩

/-- C7: the combined embedding is the elementwise sum of the token
embedding, the positional embedding sliced to the actual sequence length,
and the segment embedding, followed by layer normalization with epsilon
1e-12 and dropout; dropout is the identity outside training mode and
applies the scaled keep-mask in training mode. -/
theorem embedding_composition (c : BertConfig) (K : MathKernel)
    (P : BertParams) (tok seg : List Nat)
    (hmax : tok.length ≤ P.posEmb.length) :
    embedOne c K P tok seg =
      dropoutLayer c.dropout false []
        (layerNorm K lnEps P.embLNg P.embLNb
          (matAdd (matAdd (tokenEmbed P tok) (positionEmbed P tok.length))
            (segmentEmbed P seg))) ∧
    (∀ rate mask m, dropoutLayer rate false mask m = m) ∧
    (∀ rate mask m, dropoutLayer rate true mask m =
      List.zipWith (fun mr r => List.zipWith
        (fun k x => k * x / (1 - rate)) mr r) mask m) ∧
    (positionEmbed P tok.length).length = tok.length ∧
    lnEps = 1/1000000000000 := by
  refine ⟨rfl, fun _ _ _ => rfl, fun _ _ _ => rfl, ?_, rfl⟩
  simp only [positionEmbed, List.length_take]
  omega

/-- C7 witness: the concrete instance satisfies the slice bound and the
composition equations. -/
theorem embedding_composition_witness :
    ([0] : List Nat).length ≤ P0.posEmb.length ∧
    (embedOne c0 K0 P0 [0] [0] =
      dropoutLayer c0.dropout false []
        (layerNorm K0 lnEps P0.embLNg P0.embLNb
          (matAdd (matAdd (tokenEmbed P0 [0])
            (positionEmbed P0 ([0] : List Nat).length))
            (segmentEmbed P0 [0]))) ∧
     (∀ rate mask m, dropoutLayer rate false mask m = m) ∧
     (∀ rate mask m, dropoutLayer rate true mask m =
       List.zipWith (fun mr r => List.zipWith
         (fun k x => k * x / (1 - rate)) mr r) mask m) ∧
     (positionEmbed P0 ([0] : List Nat).length).length =
       ([0] : List Nat).length ∧
     lnEps = 1/1000000000000) :=
  ⟨by decide, embedding_composition c0 K0 P0 [0] [0] (by decide)⟩

/-- C8: the model applies exactly `num_layers` encoder blocks — the block
list of a well-formed parameter set has length `num_layers`, each block
carries `num_heads` heads and a feed-forward of width `intermediate_dim` —
block i+1 consumes block i's output, the embedding output feeds block 0,
every block receives the same shared padding mask, and each block's
feed-forward activation is the tanh-based approximate GELU. -/
theorem encoder_stack_structure (c : BertConfig) (K : MathKernel)
    (P : BertParams) (hp : paramsWf c P) :
    (∀ tok seg mask, seqOutOne c K P tok seg mask =
      encoderStack c K P.blocks mask (embedOne c K P tok seg)) ∧
    P.blocks.length = c.num_layers ∧
    (∀ bp ∈ P.blocks, bp.heads.length = c.num_heads ∧
      matShape bp.w1T c.intermediate_dim c.hidden_dim) ∧
    (∀ bp bps mask x, encoderStack c K (bp :: bps) mask x =
      encoderStack c K bps mask (encoderBlock c K bp mask x)) ∧
    (∀ mask x, encoderStack c K [] mask x = x) ∧
    (∀ bp mask x, encoderBlock c K bp mask x =
      encoderBlockAct c K (geluApprox K) bp mask x) ∧
    (∀ x, geluApprox K x =
      1/2 * x * (1 + K.tanh (K.sqrtTwoOverPi * (x + 44715/1000000 * x ^ 3)))) := by
  refine ⟨fun _ _ _ => rfl, hp.2.2.2.2.2.1, fun bp hbp => ?_,
    fun _ _ _ _ => rfl, fun _ _ => rfl, fun _ _ _ => rfl, fun _ => rfl⟩
  obtain ⟨h1, _, _, _, _, _, h7, _⟩ := hp.2.2.2.2.2.2.1 bp hbp
  exact ⟨h1, h7⟩

/-- C8 witness: the concrete well-formed parameter set has one block for
`num_layers = 1`, with one head and the stated stacking equations. -/
theorem encoder_stack_structure_witness :
    paramsWf c0 P0 ∧
    ((∀ tok seg mask, seqOutOne c0 K0 P0 tok seg mask =
       encoderStack c0 K0 P0.blocks mask (embedOne c0 K0 P0 tok seg)) ∧
     P0.blocks.length = c0.num_layers ∧
     (∀ bp ∈ P0.blocks, bp.heads.length = c0.num_heads ∧
       matShape bp.w1T c0.intermediate_dim c0.hidden_dim) ∧
     (∀ bp bps mask x, encoderStack c0 K0 (bp :: bps) mask x =
       encoderStack c0 K0 bps mask (encoderBlock c0 K0 bp mask x)) ∧
     (∀ mask x, encoderStack c0 K0 [] mask x = x) ∧
     (∀ bp mask x, encoderBlock c0 K0 bp mask x =
       encoderBlockAct c0 K0 (geluApprox K0) bp mask x) ∧
     (∀ x, geluApprox K0 x =
       1/2 * x * (1 + K0.tanh (K0.sqrtTwoOverPi * (x + 44715/1000000 * x ^ 3))))) :=
  ⟨by decide, encoder_stack_structure c0 K0 P0 (by decide)⟩

end KerasNlp

namespace PipBuild

theorem copytreeFilter_file (m : String) :
    copytreeFilter (.file m) = .file m := by
  rw [copytreeFilter]

theorem copytreeFilter_dir (d : String) (cs : List FsTree) :
    copytreeFilter (.dir d cs) = .dir d
      ((cs.attach.filter (fun c =>
        !((ignore_files (cs.map treeName)).contains (treeName c.1)))).map
        (fun c => copytreeFilter c.1)) := by
  rw [copytreeFilter]

theorem treeFiles_file (m : String) : treeFiles (.file m) = [m] := by
  rw [treeFiles]

theorem mem_treeFiles_dir {d : String} {cs : List FsTree} {n : String} :
    n ∈ treeFiles (.dir d cs) ↔ ∃ t ∈ cs, n ∈ treeFiles t := by
  rw [treeFiles]
  constructor
  · intro h
    simp only [List.mem_flatten, List.mem_map, List.mem_attach, true_and,
      Subtype.exists] at h
    obtain ⟨fs, ⟨t, ht, rfl⟩, hn⟩ := h
    exact ⟨t, ht, hn⟩
  · intro h
    obtain ⟨t, ht, hn⟩ := h
    simp only [List.mem_flatten, List.mem_map, List.mem_attach, true_and,
      Subtype.exists]
    exact ⟨treeFiles t, ⟨t, ht, rfl⟩, hn⟩

theorem treeFiles_copytree_aux :
    ∀ k (t : FsTree), sizeOf t ≤ k →
      ∀ n ∈ treeFiles (copytreeFilter t),
        strHasSubstr "_test" n = false ∨ t = .file n := by
  intro k
  induction k with
  | zero =>
      intro t ht
      exfalso
      cases t with
      | file m => simp [FsTree.file.sizeOf_spec] at ht
      | dir d cs => simp [FsTree.dir.sizeOf_spec] at ht
  | succ k ih =>
      intro t ht n hn
      cases t with
      | file m =>
          right
          rw [copytreeFilter_file, treeFiles_file] at hn
          simp at hn
          rw [hn]
      | dir d cs =>
          left
          rw [copytreeFilter_dir, mem_treeFiles_dir] at hn
          obtain ⟨t2, ht2, hnt⟩ := hn
          simp only [List.mem_map, List.mem_filter, List.mem_attach,
            true_and, Subtype.exists] at ht2
          obtain ⟨a, ha, hkept, rfl⟩ := ht2
          have hrec := ih a (by
            have := List.sizeOf_lt_of_mem ha
            rw [FsTree.dir.sizeOf_spec] at ht
            omega) n hnt
          rcases hrec with h | h
          · exact h
          · subst h
            simp only [treeName, Bool.not_eq_eq_eq_not, Bool.not_true,
              List.contains_eq_any_beq, List.any_eq_false] at hkept
            by_contra hsub
            rw [Bool.not_eq_false] at hsub
            refine hkept n ?_ (by simp)
            unfold ignore_files
            rw [List.mem_filter]
            refine ⟨?_, hsub⟩
            rw [List.mem_map]
            exact ⟨.file n, ha, rfl⟩

end PipBuild

namespace PipBuild

/-- C10: the packaging copy step excludes every file whose name contains
the substring "_test": no file name anywhere in the copied build tree of
the package directory contains "_test", so no test file reaches the built
wheel. -/
theorem pip_build_excludes_tests (d : String) (cs : List FsTree) :
    ∀ n ∈ treeFiles (copytreeFilter (.dir d cs)),
      strHasSubstr "_test" n = false := by
  intro n hn
  rcases treeFiles_copytree_aux (sizeOf (FsTree.dir d cs)) _ le_rfl n hn
    with h | h
  · exact h
  · exact FsTree.noConfusion h

/-- C10 witness: in the concrete tree, the non-test source file survives
the copy and its name contains no "_test". -/
theorem pip_build_excludes_tests_witness :
    "bert_models.py" ∈ treeFiles (copytreeFilter t0) ∧
    strHasSubstr "_test" "bert_models.py" = false := by
  have hmem : "bert_models.py" ∈ treeFiles (copytreeFilter t0) := by
    show "bert_models.py" ∈ treeFiles (copytreeFilter (.dir "keras_nlp" t0cs))
    rw [copytreeFilter_dir, mem_treeFiles_dir]
    refine ⟨copytreeFilter (.file "bert_models.py"), ?_, ?_⟩
    · rw [List.mem_map]
      refine ⟨⟨.file "bert_models.py", List.mem_cons_self _ _⟩, ?_, rfl⟩
      rw [List.mem_filter]
      exact ⟨List.mem_attach _ _, by decide⟩
    · rw [copytreeFilter_file, treeFiles_file]
      exact List.mem_cons_self _ _
  exact ⟨hmem, pip_build_excludes_tests "keras_nlp" t0cs "bert_models.py" hmem⟩

end PipBuild
